import Mathlib

/-!
Verification of the Buyer Group Enrichment and Classification Engine.

The development shallowly embeds the two incarnations of the engine:
`enrich_mux_buyer_groups.py` (namespace `Mux`) and
`analyze_yello_buyer_group.py` (namespace `Yello`).  Strings are lists of
characters, Python floats are rationals, Python dict fields that may be
absent are `Option`s, and fallible operations return `Except Unit`.
-/

attribute [local semireducible] Rat.add Rat.mul Rat.sub Rat.inv

/-- Strings of the embedded programs, as lists of characters. -/
abbrev Str := List Char

/-- ASCII lower-casing, the effect of Python `str.lower` on the rule-table
text appearing in these scripts (all of it ASCII). -/
def lowerStr (s : Str) : Str := s.map Char.toLower

/-- A regex word character, the class matched by `\w` and delimited by `\b`. -/
def isWordChar (c : Char) : Bool := c.isAlphanum || c = '_'

/-- Does `pat` occur at the head of `s`? -/
def headMatch : Str → Str → Bool
  | [], _ => true
  | _ :: _, [] => false
  | p :: ps, c :: cs => p = c && headMatch ps cs

/-- Python substring test: `pat in s`. -/
def containsSub (pat : Str) : Str → Bool
  | [] => headMatch pat []
  | c :: rest => headMatch pat (c :: rest) || containsSub pat rest

/-- A position is a word boundary against the given neighbouring character
(no character at all also being a boundary). -/
def boundaryOk : Option Char → Bool
  | Option.none => true
  | some c => !isWordChar c

/-- `w` occurs at the head of `s` with word boundaries on both sides,
`prev` being the character just before the head of `s`. -/
def wordMatchAt (w s : Str) (prev : Option Char) : Bool :=
  boundaryOk prev && headMatch w s && boundaryOk (s.drop w.length).head?

/-- Scan `s` for a boundary-delimited occurrence of `w`, where `prev` is the
character preceding the part of the string still to be scanned. -/
def occursWordFrom (w : Str) (prev : Option Char) : Str → Bool
  | [] => false
  | c :: rest => wordMatchAt w (c :: rest) prev || occursWordFrom w (some c) rest

/-- `re.search` of a single word alternative with `\b` on both sides. -/
def occursWord (w s : Str) : Bool := occursWordFrom w Option.none s

/-- `re.search(r'\b(a1|...|ak)\b', s)`: some alternative occurs
boundary-delimited in `s`. -/
def reAny (alts : List String) (s : Str) : Bool := alts.any (fun w => occursWord w.data s)

/-- Python `any(k in s for k in kws)`: some keyword is a substring of `s`. -/
def anySub (kws : List String) (s : Str) : Bool := kws.any (fun k => containsSub k.data s)

/-- A Python scalar value as found in the loaded person records: `None`, an
integer, or a string. -/
inductive PyVal where
  | none
  | int (n : Int)
  | str (s : Str)
deriving DecidableEq

/-- Python truthiness of a `PyVal`. -/
def truthy : PyVal → Bool
  | .none => false
  | .int n => n != 0
  | .str s => !s.isEmpty

/-- Python `v or w`. -/
def pyOr (v w : PyVal) : PyVal := if truthy v then v else w

/-- Numeric value of a digit string. -/
def digitsToNat (s : Str) : Nat := s.foldl (fun a c => 10 * a + (c.toNat - '0'.toNat)) 0

/-- A non-empty run of decimal digits. -/
def allDigits (s : Str) : Bool := !s.isEmpty && s.all Char.isDigit

/-- Python `int()` applied to a string: surrounding spaces are allowed, then
an optional sign and a non-empty run of digits; anything else raises
`ValueError`, modelled as `Except.error`. -/
def pyIntStr (s : Str) : Except Unit Int :=
  match (s.dropWhile (· = ' ')).reverse.dropWhile (· = ' ') |>.reverse with
  | '+' :: ds => if allDigits ds then .ok (digitsToNat ds) else .error ()
  | '-' :: ds => if allDigits ds then .ok (-(digitsToNat ds : Int)) else .error ()
  | ds => if allDigits ds then .ok (digitsToNat ds) else .error ()

/-- Python `int()` on a `PyVal`; `int(None)` raises `TypeError`. -/
def pyInt : PyVal → Except Unit Int
  | .none => .error ()
  | .int n => .ok n
  | .str s => pyIntStr s

namespace Mux

/-! Embedding of `enrich_mux_buyer_groups.py` (class `MuxBuyerGroupEnricher`). -/

/-- An entry of a raw experience list; the enricher only inspects presence
and non-emptiness of the list, the title is carried raw data. -/
structure ExpEntry where
  title : Str
deriving DecidableEq

/-- A raw Mux person record (one JSON line).  Absent keys are `Option.none`;
`activity` records presence of the key together with the Python truthiness
of its value. -/
structure Person where
  id : Str
  name : Str
  position : Option Str
  connections : Option Nat
  followers : Option Nat
  activity : Option Bool
  experience : Option (List ExpEntry)
deriving DecidableEq

/-- The five buyer-group role strings the enricher assigns. -/
inductive Role where
  | decision_maker
  | champion
  | blocker
  | stakeholder
  | opener
deriving DecidableEq

/-- The four engagement strategy strings. -/
inductive Strategy where
  | executive_sponsor
  | champion_led
  | blocker_mitigation
  | stakeholder_consensus
deriving DecidableEq

/-- The three group priority strings. -/
inductive Priority where
  | high
  | medium
  | low
deriving DecidableEq

/-- `self.department_patterns`, in dict insertion order; the first component
of each pair is `dept.title()` already applied to the dict key, which is what
`infer_department` returns on a match. -/
def department_patterns : List (String × List String) := [
  ("Sales", ["sales", "revenue", "account", "business development", "bd", "ae", "sdr", "bdr"]),
  ("Marketing", ["marketing", "growth", "demand gen", "content", "brand", "communications"]),
  ("Product", ["product", "pm", "product manager", "ux", "ui", "design"]),
  ("Engineering", ["engineer", "developer", "dev", "software", "frontend", "backend", "fullstack", "swe"]),
  ("Operations", ["operations", "ops", "revops", "salesops", "marketingops", "business operations"]),
  ("Finance", ["finance", "accounting", "fp&a", "controller", "cfo", "treasurer"]),
  ("Hr", ["hr", "human resources", "people", "talent", "recruiting", "recruitment"]),
  ("Legal", ["legal", "counsel", "compliance", "regulatory"]),
  ("Executive", ["ceo", "cfo", "cto", "coo", "president", "vp", "vice president", "director", "head of"])]

/-- `random.choice` over the five fallback departments, modelled by an
explicit choice index `rng` supplied from outside. -/
def random_choice (rng : Nat) : Str :=
  (["Engineering", "Product", "Marketing", "Sales", "Operations"].map String.data).getD (rng % 5)
    "Engineering".data

/-- `infer_department`; the unused `company_info` parameter of the source is
dropped, and the `random.choice` call is modelled by the `rng` index. -/
def infer_department (title : Str) (rng : Nat) : Str :=
  match department_patterns.find? (fun pr => reAny pr.2 (lowerStr title)) with
  | some pr => pr.1.data
  | Option.none =>
    if anySub ["video", "streaming", "ingest", "processing"] (lowerStr title) then "Engineering".data
    else if anySub ["product", "pm", "lead product"] (lowerStr title) then "Product".data
    else if anySub ["creative", "design"] (lowerStr title) then "Marketing".data
    else if anySub ["solutions", "architect", "support"] (lowerStr title) then "Customer Success".data
    else if anySub ["president", "coo"] (lowerStr title) then "Executive".data
    else if containsSub "Senior Manager".data title || containsSub "Manager".data title then
      random_choice rng
    else "Engineering".data

/-- Does a title reach the `random.choice` fallback branch of
`infer_department`?  True exactly when no department pattern matches, none of
the Mux-specific keyword groups match, and the title contains
`Senior Manager` or `Manager`. -/
def reaches_random (title : Str) : Bool :=
  (department_patterns.find? (fun pr => reAny pr.2 (lowerStr title))).isNone
  && !anySub ["video", "streaming", "ingest", "processing"] (lowerStr title)
  && !anySub ["product", "pm", "lead product"] (lowerStr title)
  && !anySub ["creative", "design"] (lowerStr title)
  && !anySub ["solutions", "architect", "support"] (lowerStr title)
  && !anySub ["president", "coo"] (lowerStr title)
  && (containsSub "Senior Manager".data title || containsSub "Manager".data title)

/-- `self.team_patterns` of `extract_team`, labels with `.title()` applied. -/
def team_patterns : List (String × List String) := [
  ("Growth", ["growth", "acquisition", "retention"]),
  ("Product", ["product", "platform", "core", "infrastructure"]),
  ("Engineering", ["frontend", "backend", "fullstack", "mobile", "web", "api"]),
  ("Sales", ["enterprise", "mid-market", "smb", "inside", "field"]),
  ("Marketing", ["content", "demand gen", "brand", "communications", "events"])]

/-- `extract_team`; the `department` parameter is unused by the source loop. -/
def extract_team (title : Str) (_department : Str) : Str :=
  match team_patterns.find? (fun pr => reAny pr.2 (lowerStr title)) with
  | some pr => pr.1.data
  | Option.none => "General".data

/-- `standardize_title`. -/
def standardize_title (title : Str) : Str :=
  if reAny ["ceo", "chief executive officer"] (lowerStr title) then "Chief Executive Officer".data
  else if reAny ["cfo", "chief financial officer"] (lowerStr title) then "Chief Financial Officer".data
  else if reAny ["cto", "chief technology officer"] (lowerStr title) then "Chief Technology Officer".data
  else if reAny ["coo", "chief operating officer"] (lowerStr title) then "Chief Operating Officer".data
  else if reAny ["vp", "vice president"] (lowerStr title) then "Vice President".data
  else if reAny ["director", "head of"] (lowerStr title) then "Director".data
  else if reAny ["manager", "lead"] (lowerStr title) then "Manager".data
  else if reAny ["engineer", "developer", "analyst", "specialist"] (lowerStr title) then
    "Individual Contributor".data
  else title

/-- `self.seniority_patterns`, in dict insertion order. -/
def seniority_patterns : List (String × List String) := [
  ("executive", ["ceo", "cfo", "cto", "coo", "president", "vp", "vice president", "chief"]),
  ("director", ["director", "head of", "senior director"]),
  ("manager", ["manager", "lead", "senior", "principal"]),
  ("individual", ["engineer", "developer", "analyst", "specialist", "coordinator"]),
  ("entry", ["associate", "junior", "intern", "assistant"])]

/-- `determine_seniority_level`. -/
def determine_seniority_level (title : Str) : Str :=
  match seniority_patterns.find? (fun pr => reAny pr.2 (lowerStr title)) with
  | some pr => pr.1.data
  | Option.none => "individual".data

/-- The title-based increment of `calculate_decision_making_power`. -/
def title_power (title : Str) : ℚ :=
  if reAny ["ceo", "cfo", "cto", "coo", "president"] (lowerStr title) then 2/5
  else if reAny ["vp", "vice president"] (lowerStr title) then 3/10
  else if reAny ["director", "head of"] (lowerStr title) then 1/5
  else if reAny ["manager", "lead"] (lowerStr title) then 1/10
  else 0

/-- The `dept_power` lookup table of `calculate_decision_making_power`. -/
def dept_power : List (String × ℚ) := [
  ("executive", 3/10), ("sales", 1/4), ("product", 1/5), ("engineering", 3/20),
  ("marketing", 3/20), ("operations", 1/10), ("finance", 1/10), ("hr", 1/20), ("legal", 1/20)]

/-- `calculate_decision_making_power`: title increment plus department
lookup (default 0.05), capped at 1. -/
def calculate_decision_making_power (title department : Str) : ℚ :=
  min (title_power title +
    (match dept_power.find? (fun e => e.1.data = lowerStr department) with
     | some e => e.2
     | Option.none => 1/20)) 1

/-- The `champion` keyword list of `self.buyer_group_roles`, the only entry
of that table the role logic consults. -/
def champion_title_words : List String := ["vp", "director", "head of", "senior"]

/-- `determine_buyer_group_role`. -/
def determine_buyer_group_role (title department : Str) (decision_power : ℚ) : Role :=
  if 3/5 ≤ decision_power then .decision_maker
  else if 2/5 ≤ decision_power ∨ anySub champion_title_words (lowerStr title) = true then .champion
  else if lowerStr department ∈ ["legal", "compliance", "finance"].map String.data then .blocker
  else if 1/5 ≤ decision_power then .stakeholder
  else .opener

/-- `calculate_influence_score`. -/
def calculate_influence_score (p : Person) (decision_power : ℚ) : ℚ :=
  let score := decision_power * (2/5)
  let score := score + (if p.activity.getD false then (1/5 : ℚ) else 0)
  let c := p.connections.getD 0
  let score := score + (if 500 < c then (1/5 : ℚ) else if 200 < c then 1/10 else 0)
  let score := score + (match p.experience with | some (_ :: _) => (1/10 : ℚ) | _ => 0)
  min score 1

/-- `calculate_flight_risk`: baseline 0.5, unconditional tenure increment
0.1, 0.2 when the activity key is present but falsy, 0.1 for
engineer/developer/sales titles, capped at 1. -/
def calculate_flight_risk (p : Person) : ℚ :=
  let risk := (1/2 : ℚ) + 1/10
  let risk := risk + (match p.activity with | some false => (1/5 : ℚ) | _ => 0)
  let risk := risk +
    (if anySub ["engineer", "developer", "sales"] (lowerStr (p.position.getD [])) then (1/10 : ℚ)
     else 0)
  min risk 1

/-- Output of `analyze_executive_character`. -/
structure ExecutiveCharacter where
  decision_making_style : Str
  risk_tolerance : Str
  leadership_style : Str
  communication_style : Str
  confidence : ℚ
deriving DecidableEq

/-- `analyze_executive_character`. -/
def analyze_executive_character (p : Person) : ExecutiveCharacter :=
  { decision_making_style :=
      if containsSub "engineer".data (lowerStr (p.position.getD [])) then "data-driven".data
      else "consensus-driven".data
    risk_tolerance := "moderate".data
    leadership_style :=
      if containsSub "vp".data (lowerStr (p.position.getD []))
          || containsSub "director".data (lowerStr (p.position.getD [])) then
        "transformational".data
      else "democratic".data
    communication_style :=
      if containsSub "engineer".data (lowerStr (p.position.getD [])) then "analytical".data
      else "direct".data
    confidence := 7/10 }

/-- Output of `build_org_structure`; `reports_to`, `direct_reports` and
`peers` are the constant placeholders of the source. -/
structure OrgStructure where
  department : Str
  level : Str
  reports_to : Option Str
  direct_reports : List Str
  peers : List Str
deriving DecidableEq

/-- `build_org_structure`. -/
def build_org_structure (p : Person) (department : Str) : OrgStructure :=
  { department := department
    level := determine_seniority_level (p.position.getD [])
    reports_to := Option.none
    direct_reports := []
    peers := [] }

/-- The missing-title test of `enrich_person`:
`not title or title in ['--', 'None', '']`. -/
def title_missing (p : Person) : Bool :=
  decide (p.position.getD [] = [] ∨ p.position.getD [] = "--".data ∨ p.position.getD [] = "None".data)

/-- The title `enrich_person` works with: the raw position when usable, else
the network-size fallback label. -/
def resolved_title (p : Person) : Str :=
  if title_missing p then
    if 500 < p.connections.getD 0 || 1000 < p.followers.getD 0 then "Senior Manager".data
    else if 200 < p.connections.getD 0 then "Manager".data
    else "Individual Contributor".data
  else p.position.getD []

/-- The `EnrichedPerson` dataclass. -/
structure EnrichedPerson where
  id : Str
  name : Str
  title : Str
  department : Str
  team : Str
  standardized_title : Str
  seniority_level : Str
  decision_making_power : ℚ
  buyer_group_role : Role
  influence_score : ℚ
  flight_risk_score : ℚ
  executive_character : ExecutiveCharacter
  org_structure : OrgStructure
  enrichment_confidence : ℚ
deriving DecidableEq

/-- `enrich_person`; `rng` feeds the `random.choice` call reachable through
`infer_department`. -/
def enrich_person (p : Person) (rng : Nat) : EnrichedPerson :=
  let title := resolved_title p
  let department := infer_department title rng
  let decision_making_power := calculate_decision_making_power title department
  { id := p.id
    name := p.name
    title := title
    department := department
    team := extract_team title department
    standardized_title := standardize_title title
    seniority_level := determine_seniority_level title
    decision_making_power := decision_making_power
    buyer_group_role := determine_buyer_group_role title department decision_making_power
    influence_score := calculate_influence_score p decision_making_power
    flight_risk_score := calculate_flight_risk p
    executive_character := analyze_executive_character p
    org_structure := build_org_structure p department
    enrichment_confidence := if title_missing p then 3/10 else 4/5 }

/-- The `roles` dict of a buyer group. -/
structure RoleBuckets where
  champions : List Str
  decision_makers : List Str
  blockers : List Str
  stakeholders : List Str
  openers : List Str
deriving DecidableEq

/-- The `metrics` dict of a buyer group. -/
structure GroupMetrics where
  total_influence : ℚ
  avg_decision_power : ℚ
  flight_risk : ℚ
  coverage_score : ℚ
deriving DecidableEq

/-- A buyer group as built by `identify_buyer_groups`. -/
structure BuyerGroup where
  id : Str
  company_id : Str
  company_name : Str
  department : Str
  members : List Str
  roles : RoleBuckets
  metrics : GroupMetrics
  engagement_strategy : Strategy
  priority : Priority
deriving DecidableEq

/-- `determine_engagement_strategy`. -/
def determine_engagement_strategy (people : List EnrichedPerson) : Strategy :=
  let champions := people.filter (fun p => decide (p.buyer_group_role = Role.champion))
  let decision_makers := people.filter (fun p => decide (p.buyer_group_role = Role.decision_maker))
  let blockers := people.filter (fun p => decide (p.buyer_group_role = Role.blocker))
  if 0 < decision_makers.length then .executive_sponsor
  else if 0 < champions.length then .champion_led
  else if 0 < blockers.length then .blocker_mitigation
  else .stakeholder_consensus

/-- `calculate_group_priority`. -/
def calculate_group_priority (people : List EnrichedPerson) : Priority :=
  let total_influence := (people.map (·.influence_score)).sum
  let avg_decision_power := (people.map (·.decision_making_power)).sum / (people.length : ℚ)
  if 3 < total_influence ∧ 2/5 < avg_decision_power then .high
  else if 2 < total_influence ∧ 3/10 < avg_decision_power then .medium
  else .low

/-- The buyer-group dict literal built inside `identify_buyer_groups` for
one department and its members. -/
def make_buyer_group (dept : Str) (people : List EnrichedPerson) : BuyerGroup :=
  { id := "mux_".data ++ lowerStr dept ++ "_bg".data
    company_id := "mux".data
    company_name := "Mux".data
    department := dept
    members := people.map (·.id)
    roles :=
      { champions := ((people.filter (fun p => decide (p.buyer_group_role = Role.champion))).map (·.id))
        decision_makers := ((people.filter (fun p => decide (p.buyer_group_role = Role.decision_maker))).map (·.id))
        blockers := ((people.filter (fun p => decide (p.buyer_group_role = Role.blocker))).map (·.id))
        stakeholders := ((people.filter (fun p => decide (p.buyer_group_role = Role.stakeholder))).map (·.id))
        openers := ((people.filter (fun p => decide (p.buyer_group_role = Role.opener))).map (·.id)) }
    metrics :=
      { total_influence := (people.map (·.influence_score)).sum
        avg_decision_power := (people.map (·.decision_making_power)).sum / (people.length : ℚ)
        flight_risk := (people.map (·.flight_risk_score)).sum / (people.length : ℚ)
        coverage_score :=
          (((people.filter (fun p =>
              decide (p.buyer_group_role = Role.champion ∨ p.buyer_group_role = Role.decision_maker))).length : ℚ))
            / (people.length : ℚ) }
    engagement_strategy := determine_engagement_strategy people
    priority := calculate_group_priority people }

/-- First-occurrence-ordered distinct keys: the key sequence of the
insertion-ordered `dept_groups` dict; `seen` holds the keys already taken. -/
def firstKeysGo : List Str → List Str → List Str
  | [], _ => []
  | x :: xs, seen => if x ∈ seen then firstKeysGo xs seen else x :: firstKeysGo xs (x :: seen)

/-- Keys of the insertion-ordered grouping dict. -/
def firstKeys (l : List Str) : List Str := firstKeysGo l []

/-- `identify_buyer_groups`: group the enriched people into the
insertion-ordered `dept_groups` dict (keys in first-occurrence order, each
key holding its people in input order) and emit one buyer group per
department of at least 3 people; smaller departments are skipped. -/
def identify_buyer_groups (people : List EnrichedPerson) : List BuyerGroup :=
  (firstKeys (people.map (·.department))).filterMap (fun dept =>
    let ps := people.filter (fun p => decide (p.department = dept))
    if 3 ≤ ps.length then some (make_buyer_group dept ps) else Option.none)

end Mux

namespace Yello

/-! Embedding of `analyze_yello_buyer_group.py`. -/

/-- A parsed `current_company` JSON object; the `isinstance(.., dict)` guard
of the source is covered by representing a non-dict value as an absent one. -/
structure Company where
  title : Option Str
deriving DecidableEq

/-- A parsed entry of the `experience` JSON array. -/
structure ExpEntry where
  title : Option Str
deriving DecidableEq

/-- An employee row after `load_yello_data`: CSV cells that may be absent or
empty are `Option`s, numeric cells are raw `PyVal`s still to be converted. -/
structure Employee where
  name : Option Str
  position : Option Str
  about : Option Str
  current_company : Option Company
  experience : Option (List ExpEntry)
  connections : Option PyVal
  followers : Option PyVal
  recommendations_count : Option PyVal
  city : Option Str
  url : Option Str
deriving DecidableEq

deriving instance DecidableEq for Except

/-- A raw CSV row before the nested JSON fields are parsed: the
`current_company` and `experience` cells are absent-or-empty (`Option.none`)
or hold a `json.loads` outcome, failure modelling `json.JSONDecodeError`. -/
structure RawRow where
  name : Option Str
  position : Option Str
  about : Option Str
  current_company : Option (Except Unit Company)
  experience : Option (Except Unit (List ExpEntry))
  connections : Option PyVal
  followers : Option PyVal
  recommendations_count : Option PyVal
  city : Option Str
  url : Option Str
deriving DecidableEq

/-- The body of the `try` block of `load_yello_data` for one row: parse the
`current_company` cell if present, then the `experience` cell if present;
either `json.JSONDecodeError` aborts the row. -/
def parse_row (r : RawRow) : Except Unit Employee := do
  let cc ← match r.current_company with
    | some res => res.map some
    | Option.none => pure Option.none
  let ex ← match r.experience with
    | some res => res.map some
    | Option.none => pure Option.none
  pure { name := r.name, position := r.position, about := r.about,
         current_company := cc, experience := ex,
         connections := r.connections, followers := r.followers,
         recommendations_count := r.recommendations_count,
         city := r.city, url := r.url }

/-- `load_yello_data`: rows whose nested JSON parses are collected in order;
a row raising `json.JSONDecodeError` is skipped (`continue`). -/
def load_yello_data : List RawRow → List Employee
  | [] => []
  | r :: rest =>
    match parse_row r with
    | .ok e => e :: load_yello_data rest
    | .error _ => load_yello_data rest

/-- `extract_title_from_current_company`. -/
def extract_title_from_current_company (e : Employee) : Str :=
  match e.current_company with
  | some c => c.title.getD []
  | Option.none => []

/-- `extract_title_from_experience`: the title of the first (most recent)
experience entry, when the list is present and non-empty. -/
def extract_title_from_experience (e : Employee) : Str :=
  match e.experience with
  | some (x :: _) => x.title.getD []
  | _ => []

/-- `get_primary_title`: position, else `current_company.title`, else the
first experience title. -/
def get_primary_title (e : Employee) : Str :=
  let title := e.position.getD []
  if title = [] then
    let title := extract_title_from_current_company e
    if title = [] then extract_title_from_experience e else title
  else title

/-- The `sales_keywords` list of `categorize_department`. -/
def sales_keywords : List String := [
  "sales", "revenue", "revops", "account executive", "business development",
  "sales development", "sales operations", "revenue operations", "sales manager",
  "sales director", "sales leader", "sales enablement", "sales strategy",
  "field sales", "inside sales", "enterprise sales", "commercial sales",
  "business development representative", "bdr", "sdr"]

/-- The `marketing_keywords` list. -/
def marketing_keywords : List String := [
  "marketing", "product marketing", "field marketing", "demand generation",
  "growth marketing", "digital marketing", "content marketing", "brand",
  "communications", "public relations", "pr", "social media", "brand content"]

/-- The `engineering_keywords` list. -/
def engineering_keywords : List String := [
  "engineer", "software", "developer", "programmer", "architect", "technical",
  "product manager", "product owner", "scrum master", "agile", "devops",
  "site reliability", "sre", "platform", "infrastructure", "backend", "frontend",
  "full stack", "data engineer", "machine learning", "ai", "ml"]

/-- The `customer_keywords` list. -/
def customer_keywords : List String := [
  "customer success", "customer support", "customer experience", "cx",
  "support engineer", "technical support", "customer success manager",
  "account manager", "customer success director", "client manager"]

/-- The `operations_keywords` list. -/
def operations_keywords : List String := [
  "operations", "business operations", "strategy", "business development",
  "partnerships", "alliances", "channel", "operations manager", "chief of staff"]

/-- The `hr_keywords` list. -/
def hr_keywords : List String := [
  "hr", "human resources", "people", "talent", "recruiting", "recruitment",
  "people operations", "hr manager", "hr director", "talent acquisition"]

/-- The `finance_keywords` list. -/
def finance_keywords : List String := [
  "finance", "financial", "accounting", "controller", "cfo", "legal",
  "counsel", "attorney", "compliance", "risk", "audit"]

/-- The `executive_keywords` list. -/
def executive_keywords : List String := [
  "ceo", "cto", "cfo", "coo", "president", "vice president", "vp",
  "director", "head of", "chief", "founder", "co-founder", "executive"]

/-- `combined_text` of `categorize_department`:
`f"{title_lower} {about_lower}"`. -/
def combined_text (title about : Str) : Str :=
  lowerStr title ++ [' '] ++ lowerStr about

/-- `categorize_department`: the keyword groups are tested in a fixed
priority order, the first group with a matching keyword wins. -/
def categorize_department (title about : Str) : Str :=
  let t := combined_text title about
  if anySub sales_keywords t then "Sales & Revenue Operations".data
  else if anySub marketing_keywords t then "Marketing".data
  else if anySub engineering_keywords t then "Engineering & Product".data
  else if anySub customer_keywords t then "Customer Success & Support".data
  else if anySub operations_keywords t then "Operations & Business".data
  else if anySub hr_keywords t then "HR & People".data
  else if anySub finance_keywords t then "Finance & Legal".data
  else if anySub executive_keywords t then "Executive & Leadership".data
  else "Other".data

/-- The four seniority label strings of `calculate_seniority_level`. -/
inductive Seniority where
  | executive
  | seniorLeadership
  | midManagement
  | individualContributor
deriving DecidableEq

/-- `calculate_seniority_level`: keyword cascade on the title, then a
network-size fallback whose `int()` conversions can raise on non-numeric
cells. -/
def calculate_seniority_level (title : Str) (connections followers : PyVal) :
    Except Unit Seniority :=
  if anySub ["ceo", "cto", "cfo", "coo", "president", "founder", "co-founder"] (lowerStr title) then
    .ok .executive
  else if anySub ["vice president", "vp", "director", "head of", "chief"] (lowerStr title) then
    .ok .seniorLeadership
  else if anySub ["manager", "lead", "senior", "principal"] (lowerStr title) then
    .ok .midManagement
  else if anySub ["engineer", "developer", "analyst", "specialist", "coordinator", "representative"]
      (lowerStr title) then
    .ok .individualContributor
  else
    match pyInt (pyOr connections (.int 0)) with
    | .error u => .error u
    | .ok c =>
      match pyInt (pyOr followers (.int 0)) with
      | .error u => .error u
      | .ok f =>
        if 2000 < c + f then .ok .seniorLeadership
        else if 1000 < c + f then .ok .midManagement
        else .ok .individualContributor

/-- `int(employee.get(field, 0) or 0)`, the conversion applied to each
numeric count cell. -/
def countVal (v : Option PyVal) : Except Unit Int :=
  pyInt (pyOr (v.getD (PyVal.int 0)) (PyVal.int 0))

/-- The seniority bonus table of `calculate_influence_score`. -/
def seniority_bonus : Seniority → ℚ
  | .executive => 5
  | .seniorLeadership => 3
  | .midManagement => 3/2
  | .individualContributor => 1/2

/-- `calculate_influence_score`: capped network component plus capped
recommendation bonus plus seniority bonus. -/
def calculate_influence_score (e : Employee) : Except Unit ℚ :=
  match countVal e.connections with
  | .error u => .error u
  | .ok connections =>
    match countVal e.followers with
    | .error u => .error u
    | .ok followers =>
      match countVal e.recommendations_count with
      | .error u => .error u
      | .ok recommendations_count =>
        match calculate_seniority_level (get_primary_title e) (.int connections)
            (.int followers) with
        | .error u => .error u
        | .ok seniority =>
          .ok (min (((connections : ℚ) + (followers : ℚ)) / 1000) 10 +
            min ((recommendations_count : ℚ) * (1/2)) 5 + seniority_bonus seniority)

/-- The five role labels of `identify_buyer_group_roles`. -/
inductive Role where
  | decisionMaker
  | champion
  | stakeholder
  | blocker
  | introducer
deriving DecidableEq

/-- The per-person if/elif cascade of `identify_buyer_group_roles`. -/
def roleFor (seniority : Seniority) (influence : ℚ) : Role :=
  if seniority = .executive ∧ 8 ≤ influence then .decisionMaker
  else if (seniority = .executive ∨ seniority = .seniorLeadership) ∧ 6 ≤ influence then .champion
  else if (seniority = .seniorLeadership ∨ seniority = .midManagement) ∧ 4 ≤ influence then
    .stakeholder
  else if influence < 3 then .blocker
  else .introducer

/-- An entry of the `sales_employees` list built by
`identify_buyer_group_roles`. -/
structure SalesEmp where
  name : Str
  title : Str
  department : Str
  seniority : Seniority
  influence_score : ℚ
  connections : PyVal
  followers : PyVal
  location : Str
  linkedin_url : Str
  about : Str
deriving DecidableEq

/-- The dict literal appended to `sales_employees` for a sales-department
employee, including the 200-character truncation of `about`. -/
def mk_sales_emp (e : Employee) (title : Str) (seniority : Seniority) (influence : ℚ) : SalesEmp :=
  { name := (e.name.getD "Unknown".data)
    title := title
    department := "Sales & Revenue Operations".data
    seniority := seniority
    influence_score := influence
    connections := e.connections.getD (PyVal.int 0)
    followers := e.followers.getD (PyVal.int 0)
    location := e.city.getD "Unknown".data
    linkedin_url := e.url.getD []
    about := if (e.about.getD []) = [] then [] else (e.about.getD []).take 200 ++ "...".data }

/-- The first loop of `identify_buyer_group_roles`: keep the employees whose
department classifies as sales, computing seniority and influence for each
(either `int()` conversion may raise). -/
def sales_employees : List Employee → Except Unit (List SalesEmp)
  | [] => pure []
  | e :: rest => do
    let title := get_primary_title e
    let rest ← sales_employees rest
    if categorize_department title (e.about.getD []) = "Sales & Revenue Operations".data then do
      let seniority ← calculate_seniority_level title (e.connections.getD (PyVal.int 0))
        (e.followers.getD (PyVal.int 0))
      let influence ← calculate_influence_score e
      pure (mk_sales_emp e title seniority influence :: rest)
    else
      pure rest

/-- One insertion step of the stable descending sort on influence. -/
def insertDesc (x : SalesEmp) : List SalesEmp → List SalesEmp
  | [] => [x]
  | y :: ys => if y.influence_score < x.influence_score then x :: y :: ys else y :: insertDesc x ys

/-- `sales_employees.sort(key=influence_score, reverse=True)`: a stable sort
placing higher influence first. -/
def sortByInfluence : List SalesEmp → List SalesEmp
  | [] => []
  | x :: xs => insertDesc x (sortByInfluence xs)

/-- The `buyer_groups` dict of role buckets. -/
structure Buckets where
  decision_makers : List SalesEmp
  champions : List SalesEmp
  stakeholders : List SalesEmp
  blockers : List SalesEmp
  introducers : List SalesEmp
deriving DecidableEq

/-- The empty bucket dict. -/
def emptyBuckets : Buckets :=
  { decision_makers := [], champions := [], stakeholders := [], blockers := [], introducers := [] }

/-- One iteration of the bucket loop: append the employee to the single
bucket chosen by the if/elif cascade. -/
def addToBuckets (b : Buckets) (e : SalesEmp) : Buckets :=
  match roleFor e.seniority e.influence_score with
  | .decisionMaker => { b with decision_makers := b.decision_makers ++ [e] }
  | .champion => { b with champions := b.champions ++ [e] }
  | .stakeholder => { b with stakeholders := b.stakeholders ++ [e] }
  | .blocker => { b with blockers := b.blockers ++ [e] }
  | .introducer => { b with introducers := b.introducers ++ [e] }

/-- `identify_buyer_group_roles`: build the sales list, sort it by influence
descending, then distribute into the role buckets. -/
def identify_buyer_group_roles (employees : List Employee) : Except Unit Buckets :=
  match sales_employees employees with
  | .error u => .error u
  | .ok sales => .ok ((sortByInfluence sales).foldl addToBuckets emptyBuckets)

/-- Total number of employees across the five buckets. -/
def bucketsSize (b : Buckets) : Nat :=
  b.decision_makers.length + b.champions.length + b.stakeholders.length +
    b.blockers.length + b.introducers.length

end Yello

/-! Claim-side definitions (modelled from the wording of the spec, to be
compared with the code embeddings above) and the concrete records used by
the counterexamples and witnesses. -/

/-- A title is usable when it is neither empty nor a placeholder. -/
def usable_title (t : Str) : Bool :=
  decide (¬(t = [] ∨ t = "--".data ∨ t = "None".data))

/-- Modelled from the spec (section 4.1) as the claim states it: resolve the
title as the first usable of the direct position field, the current-employer
title, and the first experience title; only when all three are unusable
infer a label from network size, with confidence 0.8 for a direct source and
0.3 for an inferred one. -/
def claimed_title_resolution (position employer_title experience_title : Str)
    (connections followers : Nat) : Str × ℚ :=
  if usable_title position then (position, 4/5)
  else if usable_title employer_title then (employer_title, 4/5)
  else if usable_title experience_title then (experience_title, 4/5)
  else
    (if 500 < connections ∨ 1000 < followers then "Senior Manager".data
     else if 200 < connections then "Manager".data
     else "Individual Contributor".data, 3/10)

/-- The title carried by the first experience entry of a Mux person record;
read by the claim-side normalizer above, never by the Mux code. -/
def mux_experience_title (p : Mux.Person) : Str :=
  match p.experience with
  | some (x :: _) => x.title
  | _ => []

/-- Modelled from the spec (section 4.4) as the claim states it: the
precedence cascade DecisionMaker, then Champion, then Blocker, then
Stakeholder, else Introducer, with the department and decision-power
conditions the claim names (departments written as the yello labels). -/
def claimed_role_cascade (tier : Yello.Seniority) (department : Str)
    (decision_power influence : ℚ) : Yello.Role :=
  if tier = .executive ∧ (3/5 ≤ decision_power ∨ 8 ≤ influence) then .decisionMaker
  else if ((tier = .seniorLeadership ∨ tier = .executive) ∧ 6 ≤ influence)
      ∨ (department ∈ ["Sales & Revenue Operations", "Marketing"].map String.data ∧ 5 ≤ influence) then
    .champion
  else if department = "Finance & Legal".data ∨ influence < 3 then .blocker
  else if (tier = .seniorLeadership ∨ tier = .midManagement) ∧ 4 ≤ influence then .stakeholder
  else .introducer

/-- The ordered rule table of the cascade the yello code implements, the
role assignment as an explicit first-match-wins data artifact. -/
def yello_role_rules : List ((Yello.Seniority → ℚ → Bool) × Yello.Role) := [
  (fun s i => decide (s = .executive ∧ 8 ≤ i), .decisionMaker),
  (fun s i => decide ((s = .executive ∨ s = .seniorLeadership) ∧ 6 ≤ i), .champion),
  (fun s i => decide ((s = .seniorLeadership ∨ s = .midManagement) ∧ 4 ≤ i), .stakeholder),
  (fun _ i => decide (i < 3), .blocker)]

/-- Evaluate an ordered rule table, first match wins, `Introducer` as the
final else. -/
def first_match_role (rules : List ((Yello.Seniority → ℚ → Bool) × Yello.Role))
    (s : Yello.Seniority) (i : ℚ) : Yello.Role :=
  match rules.find? (fun r => r.1 s i) with
  | some r => r.2
  | Option.none => .introducer

/-- A Mux person record with only the identity and headline fields set. -/
def mkPerson (id name : String) (position : Option String)
    (connections followers : Option Nat) : Mux.Person :=
  { id := id.data
    name := name.data
    position := position.map String.data
    connections := connections
    followers := followers
    activity := Option.none
    experience := Option.none }

/-- A lone salesperson: a batch of one person in a one-member department. -/
def c1person : Mux.Person := mkPerson "p1" "Ann Example" (some "VP of Sales") Option.none Option.none

/-- Three enriched engineers sharing one department, with distinct ids. -/
def c1demo : List Mux.EnrichedPerson :=
  [Mux.enrich_person (mkPerson "e1" "A" (some "Software Engineer") Option.none Option.none) 0,
   Mux.enrich_person (mkPerson "e2" "B" (some "Backend Developer") Option.none Option.none) 0,
   Mux.enrich_person (mkPerson "e3" "C" (some "Platform Engineer") Option.none Option.none) 0]

/-- A person whose title reaches the `random.choice` branch of
`infer_department`. -/
def c2person : Mux.Person := mkPerson "m1" "Max" (some "Senior Manager") Option.none Option.none

/-- A person whose title resolves through the department pattern table and
so never reaches the random branch. -/
def c2ceo : Mux.Person := mkPerson "m2" "Cleo" (some "CEO") Option.none Option.none

/-- A yello employee classified into the sales department with
Mid-Level Management seniority and influence 5.5. -/
def c4emp : Yello.Employee :=
  { name := some "Sam".data
    position := some "Sales Manager".data
    about := Option.none
    current_company := Option.none
    experience := Option.none
    connections := some (PyVal.int 4000)
    followers := Option.none
    recommendations_count := Option.none
    city := Option.none
    url := Option.none }

/-- The bucket assignment the yello code computes for `c4emp` alone. -/
def c4buckets : Yello.Buckets :=
  match Yello.identify_buyer_group_roles [c4emp] with
  | .ok b => b
  | .error _ => Yello.emptyBuckets

/-- A Mux person with an empty position but a titled first experience
entry. -/
def c5person : Mux.Person :=
  { id := "p5".data
    name := "Paula".data
    position := some []
    connections := Option.none
    followers := Option.none
    activity := Option.none
    experience := some [{ title := "CEO".data }] }

/-- A yello employee with no position but a titled current company. -/
def c5employee : Yello.Employee :=
  { name := Option.none
    position := some []
    about := Option.none
    current_company := some { title := some "CTO".data }
    experience := Option.none
    connections := Option.none
    followers := Option.none
    recommendations_count := Option.none
    city := Option.none
    url := Option.none }

/-- A CSV row whose nested fields all parse. -/
def c6good : Yello.RawRow :=
  { name := some "Good".data
    position := some "CEO".data
    about := Option.none
    current_company := Option.none
    experience := Option.none
    connections := Option.none
    followers := Option.none
    recommendations_count := Option.none
    city := Option.none
    url := Option.none }

/-- A CSV row whose `experience` cell fails to parse as JSON. -/
def c6bad : Yello.RawRow := { c6good with name := some "Bad".data, experience := some (Except.error ()) }

/-- A yello employee whose `connections` cell holds a non-numeric string. -/
def c7emp : Yello.Employee :=
  { name := Option.none
    position := some "Sales Manager".data
    about := Option.none
    current_company := Option.none
    experience := Option.none
    connections := some (PyVal.str "abc".data)
    followers := Option.none
    recommendations_count := Option.none
    city := Option.none
    url := Option.none }

/-- A yello employee with a pathologically huge connections count. -/
def c3emp : Yello.Employee :=
  { name := Option.none
    position := some "CEO".data
    about := Option.none
    current_company := Option.none
    experience := Option.none
    connections := some (PyVal.int 1000000000000)
    followers := some (PyVal.int 999999999)
    recommendations_count := some (PyVal.int 88888888)
    city := Option.none
    url := Option.none }

/-- A one-person batch whose member is enriched into a decision maker. -/
def c9demo : List Mux.EnrichedPerson :=
  [Mux.enrich_person (mkPerson "c1" "Chief" (some "CEO") Option.none Option.none) 0]

/-! Theorems. -/

/-- C10: for every person record the computed flight risk is at least 0.6 —
the 0.5 baseline plus the unconditional 0.1 tenure increment are always
applied before the optional increments — and with the cap at 1.0 the score
always lies in the interval from 0.6 to 1. -/
theorem C10_flight_risk_bounds (p : Mux.Person) :
    3/5 ≤ Mux.calculate_flight_risk p ∧ Mux.calculate_flight_risk p ≤ 1 := by
  have key : ∀ a t : ℚ, 0 ≤ a → 0 ≤ t →
      3/5 ≤ min ((1/2 + 1/10 + a) + t) 1 ∧ min ((1/2 + 1/10 + a) + t) 1 ≤ 1 := by
    intro a t ha ht
    exact ⟨le_min (by linarith) (by norm_num), min_le_right _ _⟩
  have hA : (0:ℚ) ≤ (match p.activity with | some false => (1/5:ℚ) | _ => 0) := by
    rcases p.activity with _ | b
    · norm_num
    · cases b <;> norm_num
  have hT : (0:ℚ) ≤
      (if anySub ["engineer", "developer", "sales"] (lowerStr (p.position.getD [])) then (1/10:ℚ)
       else 0) := by
    split_ifs <;> norm_num
  exact key _ _ hA hT

/-- C8: any title and biography whose lower-cased combined text contains a
sales keyword classifies as the sales and revenue department, regardless of
which later-checked keyword groups also match. -/
theorem C8_sales_precedence (title about : Str)
    (h : anySub Yello.sales_keywords (Yello.combined_text title about) = true) :
    Yello.categorize_department title about = "Sales & Revenue Operations".data := by
  unfold Yello.categorize_department
  simp only [h, if_true]

/-- Witness for C8 at the title of the claim: `Sales Engineering Manager`
contains a sales keyword and classifies as Sales & Revenue Operations even
though it also contains an engineering keyword. -/
theorem C8_sales_precedence_witness :
    (anySub Yello.sales_keywords (Yello.combined_text "Sales Engineering Manager".data []) = true ∧
      anySub Yello.engineering_keywords (Yello.combined_text "Sales Engineering Manager".data []) = true) ∧
    Yello.categorize_department "Sales Engineering Manager".data [] =
      "Sales & Revenue Operations".data :=
  ⟨⟨by decide, by decide⟩, C8_sales_precedence _ _ (by decide)⟩

/-- A role filter over a member list is non-empty exactly when some member
holds the role. -/
theorem filter_role_pos (people : List Mux.EnrichedPerson) (r : Mux.Role) :
    (0 < (people.filter (fun p => decide (p.buyer_group_role = r))).length) ↔
      ∃ p ∈ people, p.buyer_group_role = r := by
  rw [List.length_pos, Ne, List.filter_eq_nil_iff]
  push_neg
  simp

/-- C9: the engagement strategy of a non-empty group is selected by exact
precedence — any decision maker gives executive sponsorship, else any
champion gives the champion-led strategy, else any blocker gives blocker
mitigation, else stakeholder consensus. -/
theorem C9_engagement_precedence (people : List Mux.EnrichedPerson) (_hne : people ≠ []) :
    ((∃ p ∈ people, p.buyer_group_role = Mux.Role.decision_maker) →
      Mux.determine_engagement_strategy people = .executive_sponsor) ∧
    (¬(∃ p ∈ people, p.buyer_group_role = Mux.Role.decision_maker) →
      (∃ p ∈ people, p.buyer_group_role = Mux.Role.champion) →
      Mux.determine_engagement_strategy people = .champion_led) ∧
    (¬(∃ p ∈ people, p.buyer_group_role = Mux.Role.decision_maker) →
      ¬(∃ p ∈ people, p.buyer_group_role = Mux.Role.champion) →
      (∃ p ∈ people, p.buyer_group_role = Mux.Role.blocker) →
      Mux.determine_engagement_strategy people = .blocker_mitigation) ∧
    (¬(∃ p ∈ people, p.buyer_group_role = Mux.Role.decision_maker) →
      ¬(∃ p ∈ people, p.buyer_group_role = Mux.Role.champion) →
      ¬(∃ p ∈ people, p.buyer_group_role = Mux.Role.blocker) →
      Mux.determine_engagement_strategy people = .stakeholder_consensus) := by
  unfold Mux.determine_engagement_strategy
  refine ⟨fun hd => ?_, fun hnd hc => ?_, fun hnd hnc hb => ?_, fun hnd hnc hnb => ?_⟩
  · rw [if_pos ((filter_role_pos people Mux.Role.decision_maker).mpr hd)]
  · rw [if_neg (fun hp => hnd ((filter_role_pos people _).mp hp)),
      if_pos ((filter_role_pos people Mux.Role.champion).mpr hc)]
  · rw [if_neg (fun hp => hnd ((filter_role_pos people _).mp hp)),
      if_neg (fun hp => hnc ((filter_role_pos people _).mp hp)),
      if_pos ((filter_role_pos people Mux.Role.blocker).mpr hb)]
  · rw [if_neg (fun hp => hnd ((filter_role_pos people _).mp hp)),
      if_neg (fun hp => hnc ((filter_role_pos people _).mp hp)),
      if_neg (fun hp => hnb ((filter_role_pos people _).mp hp))]

/-- Witness for C9: a one-person group whose member enriches to a decision
maker gets the executive-sponsor strategy. -/
theorem C9_engagement_precedence_witness :
    (c9demo ≠ [] ∧ ∃ p ∈ c9demo, p.buyer_group_role = Mux.Role.decision_maker) ∧
    Mux.determine_engagement_strategy c9demo = .executive_sponsor :=
  ⟨⟨by decide, by decide⟩, (C9_engagement_precedence c9demo (by decide)).1 (by decide)⟩

/-- C1 fails as stated: a batch holding one lone salesperson — a department
with fewer than 3 members — yields no buyer group at all, so its member
appears in zero groups instead of being folded into a company-wide fallback
group. -/
theorem C1_counterexample :
    Mux.identify_buyer_groups [Mux.enrich_person c1person 0] = [] ∧
    (Mux.identify_buyer_groups [Mux.enrich_person c1person 0]).countP
      (fun g => decide ((Mux.enrich_person c1person 0).id ∈ g.members)) = 0 := by
  exact ⟨by decide, by decide⟩

/-- C2 fails as stated: two runs on the identical person record disagree,
because `infer_department` draws the department with `random.choice` when
the title `Senior Manager` matches no keyword table. -/
theorem C2_counterexample :
    Mux.enrich_person c2person 0 ≠ Mux.enrich_person c2person 1 := by decide

/-- C4 fails as stated: a sales employee of Mid-Level Management seniority
and influence 5.5 is bucketed as a Stakeholder by the code, while the
cascade the claim describes (Champion on sales membership with influence at
least 5, Blocker checked before Stakeholder) would make them a Champion. -/
theorem C4_counterexample :
    Yello.calculate_influence_score c4emp = Except.ok (11/2) ∧
    Yello.calculate_seniority_level (Yello.get_primary_title c4emp)
      (c4emp.connections.getD (PyVal.int 0)) (c4emp.followers.getD (PyVal.int 0)) =
        Except.ok Yello.Seniority.midManagement ∧
    Yello.categorize_department (Yello.get_primary_title c4emp) (c4emp.about.getD []) =
      "Sales & Revenue Operations".data ∧
    claimed_role_cascade Yello.Seniority.midManagement "Sales & Revenue Operations".data 0 (11/2) =
      Yello.Role.champion ∧
    (Yello.identify_buyer_group_roles [c4emp]).map
      (fun b => (b.decision_makers.length, b.champions.length, b.stakeholders.length,
        b.blockers.length, b.introducers.length)) = Except.ok (0, 0, 1, 0, 0) := by
  refine ⟨by decide, by decide, by decide, by decide, by decide⟩

/-- C5 fails as stated: for a person with an empty position field but a
titled first experience entry, the claimed three-source resolution yields
that title with confidence 0.8, while the Mux enricher consults only the
position field, infers `Individual Contributor` and reports confidence
0.3. -/
theorem C5_counterexample :
    claimed_title_resolution (c5person.position.getD []) [] (mux_experience_title c5person)
      (c5person.connections.getD 0) (c5person.followers.getD 0) = ("CEO".data, 4/5) ∧
    (Mux.enrich_person c5person 0).title = "Individual Contributor".data ∧
    (Mux.enrich_person c5person 0).enrichment_confidence = 3/10 := by
  refine ⟨by decide, by decide, by decide⟩

/-- C6 fails as stated: a row whose `experience` cell does not parse is
skipped by `load_yello_data`, so a batch of two rows produces one employee —
the offending person is dropped, not enriched from the remaining fields. -/
theorem C6_counterexample :
    Yello.parse_row c6bad = Except.error () ∧
    (Yello.load_yello_data [c6good, c6bad]).length = 1 := by
  exact ⟨by decide, by decide⟩

/-- C7 fails as stated: a `connections` cell holding the non-numeric string
`abc` makes the influence computation raise (`int()` raises `ValueError`)
instead of treating the count as 0. -/
theorem C7_counterexample :
    c7emp.connections = some (PyVal.str "abc".data) ∧
    Yello.calculate_influence_score c7emp = Except.error () := by
  exact ⟨by decide, by decide⟩

/-- The department increment looked up by
`calculate_decision_making_power` is non-negative for every department. -/
theorem dept_power_nonneg (department : Str) :
    (0:ℚ) ≤ (match Mux.dept_power.find? (fun e => e.1.data = lowerStr department) with
      | some e => e.2
      | Option.none => 1/20) := by
  cases hfind : Mux.dept_power.find? (fun e => e.1.data = lowerStr department) with
  | none => norm_num
  | some e =>
    have he := List.mem_of_find?_eq_some hfind
    fin_cases he <;> norm_num

/-- The title increment of `calculate_decision_making_power` is
non-negative for every title. -/
theorem title_power_nonneg (title : Str) : 0 ≤ Mux.title_power title := by
  unfold Mux.title_power
  split_ifs <;> norm_num

/-- C3: for every input, the decision-making power lies in the unit
interval, the flight risk lies in the unit interval, and for count cells
that convert to non-negative integers — the PersonRecord data model, at any
magnitude — the influence score is non-negative. -/
theorem C3_score_bounds :
    (∀ title department : Str, 0 ≤ Mux.calculate_decision_making_power title department ∧
      Mux.calculate_decision_making_power title department ≤ 1) ∧
    (∀ p : Mux.Person, 0 ≤ Mux.calculate_flight_risk p ∧ Mux.calculate_flight_risk p ≤ 1) ∧
    (∀ (e : Yello.Employee) (c f r : Int) (q : ℚ),
      Yello.countVal e.connections = Except.ok c → 0 ≤ c →
      Yello.countVal e.followers = Except.ok f → 0 ≤ f →
      Yello.countVal e.recommendations_count = Except.ok r → 0 ≤ r →
      Yello.calculate_influence_score e = Except.ok q → 0 ≤ q) := by
  refine ⟨?_, ?_, ?_⟩
  · intro title department
    unfold Mux.calculate_decision_making_power
    constructor
    · exact le_min (add_nonneg (title_power_nonneg title) (dept_power_nonneg department))
        (by norm_num)
    · exact min_le_right _ _
  · intro p
    have key : ∀ a t : ℚ, 0 ≤ a → 0 ≤ t →
        0 ≤ min ((1/2 + 1/10 + a) + t) 1 ∧ min ((1/2 + 1/10 + a) + t) 1 ≤ 1 := by
      intro a t ha ht
      exact ⟨le_min (by linarith) (by norm_num), min_le_right _ _⟩
    have hA : (0:ℚ) ≤ (match p.activity with | some false => (1/5:ℚ) | _ => 0) := by
      rcases p.activity with _ | b
      · norm_num
      · cases b <;> norm_num
    have hT : (0:ℚ) ≤
        (if anySub ["engineer", "developer", "sales"] (lowerStr (p.position.getD [])) then (1/10:ℚ)
         else 0) := by
      split_ifs <;> norm_num
    exact key _ _ hA hT
  · intro e c f r q hc hc0 hf hf0 hr hr0 hq
    have hcq : (0:ℚ) ≤ (c:ℚ) := by exact_mod_cast hc0
    have hfq : (0:ℚ) ≤ (f:ℚ) := by exact_mod_cast hf0
    have hrq : (0:ℚ) ≤ (r:ℚ) := by exact_mod_cast hr0
    unfold Yello.calculate_influence_score at hq
    rw [hc, hf, hr] at hq
    dsimp only [] at hq
    cases hs : Yello.calculate_seniority_level (Yello.get_primary_title e) (.int c) (.int f) with
    | error u => rw [hs] at hq; cases hq
    | ok s =>
      rw [hs] at hq
      simp only [Except.ok.injEq] at hq
      subst hq
      have h1 : (0:ℚ) ≤ min (((c:ℚ) + (f:ℚ)) / 1000) 10 :=
        le_min (by positivity) (by norm_num)
      have h2 : (0:ℚ) ≤ min ((r:ℚ) * (1/2)) 5 := le_min (by positivity) (by norm_num)
      have h3 : (0:ℚ) ≤ Yello.seniority_bonus s := by
        cases s <;> norm_num [Yello.seniority_bonus]
      linarith

/-- Witness for C3: the influence bound holds at a record with a
trillion-connection count, where the capped components give a score of
exactly 20. -/
theorem C3_score_bounds_witness :
    (Yello.countVal c3emp.connections = Except.ok 1000000000000 ∧
      Yello.countVal c3emp.followers = Except.ok 999999999 ∧
      Yello.countVal c3emp.recommendations_count = Except.ok 88888888 ∧
      Yello.calculate_influence_score c3emp = Except.ok 20) ∧
    0 ≤ (20:ℚ) :=
  ⟨⟨by decide, by decide, by decide, by decide⟩,
    C3_score_bounds.2.2 c3emp 1000000000000 999999999 88888888 20 (by decide) (by decide)
      (by decide) (by decide) (by decide) (by decide) (by decide)⟩

/-- `infer_department` ignores the choice index whenever the title does not
reach the random branch. -/
theorem infer_department_deterministic (title : Str)
    (h : Mux.reaches_random title = false) (r1 r2 : Nat) :
    Mux.infer_department title r1 = Mux.infer_department title r2 := by
  unfold Mux.infer_department
  cases hfind : Mux.department_patterns.find? (fun pr => reAny pr.2 (lowerStr title)) with
  | some pr => rfl
  | none =>
    unfold Mux.reaches_random at h
    rw [hfind] at h
    split_ifs <;> first | rfl | (exfalso; simp_all)

/-- C2 amended: the pipeline is deterministic except for the random
department fallback — for every person whose resolved title does not reach
the `random.choice` branch of `infer_department`, two runs on the identical
record produce identical enriched output (the downstream group building is
a pure function of the enriched list). -/
theorem C2_deterministic (p : Mux.Person)
    (h : Mux.reaches_random (Mux.resolved_title p) = false) (r1 r2 : Nat) :
    Mux.enrich_person p r1 = Mux.enrich_person p r2 := by
  have hd := infer_department_deterministic (Mux.resolved_title p) h r1 r2
  simp only [Mux.enrich_person]
  rw [hd]

/-- Witness for C2: a person titled `CEO` resolves through the department
pattern table, so runs with different choice indices agree. -/
theorem C2_deterministic_witness :
    Mux.reaches_random (Mux.resolved_title c2ceo) = false ∧
    Mux.enrich_person c2ceo 0 = Mux.enrich_person c2ceo 5 :=
  ⟨by decide, C2_deterministic c2ceo (by decide) 0 5⟩

/-- C5 amended: the three-source resolution order — position, then
current-company title, then first experience title — holds in the yello
variant, which attaches no confidence and has no fallback; the mux variant
consults only the direct position field: a usable position is kept with
confidence 0.8, anything else triggers the network-size fallback with
confidence 0.3, regardless of the employer and experience titles. -/
theorem C5_title_resolution :
    (∀ e : Yello.Employee, e.position.getD [] ≠ [] →
      Yello.get_primary_title e = e.position.getD []) ∧
    (∀ e : Yello.Employee, e.position.getD [] = [] →
      Yello.extract_title_from_current_company e ≠ [] →
      Yello.get_primary_title e = Yello.extract_title_from_current_company e) ∧
    (∀ e : Yello.Employee, e.position.getD [] = [] →
      Yello.extract_title_from_current_company e = [] →
      Yello.get_primary_title e = Yello.extract_title_from_experience e) ∧
    (∀ (p : Mux.Person) (rng : Nat), Mux.title_missing p = false →
      (Mux.enrich_person p rng).title = p.position.getD [] ∧
      (Mux.enrich_person p rng).enrichment_confidence = 4/5) ∧
    (∀ (p : Mux.Person) (rng : Nat), Mux.title_missing p = true →
      (Mux.enrich_person p rng).enrichment_confidence = 3/10 ∧
      (Mux.enrich_person p rng).title =
        (if 500 < p.connections.getD 0 || 1000 < p.followers.getD 0 then "Senior Manager".data
         else if 200 < p.connections.getD 0 then "Manager".data
         else "Individual Contributor".data)) := by
  refine ⟨?_, ?_, ?_, ?_, ?_⟩
  · intro e he
    unfold Yello.get_primary_title
    rw [if_neg he]
  · intro e he hcc
    unfold Yello.get_primary_title
    rw [if_pos he, if_neg hcc]
  · intro e he hcc
    unfold Yello.get_primary_title
    rw [if_pos he, if_pos hcc]
  · intro p rng h
    constructor
    · show Mux.resolved_title p = p.position.getD []
      unfold Mux.resolved_title
      rw [h]
      rfl
    · show (if Mux.title_missing p then (3/10 : ℚ) else 4/5) = 4/5
      rw [h]
      rfl
  · intro p rng h
    constructor
    · show (if Mux.title_missing p then (3/10 : ℚ) else 4/5) = 3/10
      rw [h]
      rfl
    · show Mux.resolved_title p = _
      unfold Mux.resolved_title
      rw [h]
      rfl

/-- Witness for C5: a yello employee with an empty position and a titled
current company resolves to the employer title, and a mux person with a
usable position keeps it with confidence 0.8. -/
theorem C5_title_resolution_witness :
    (c5employee.position.getD [] = [] ∧
      Yello.extract_title_from_current_company c5employee ≠ [] ∧
      Yello.get_primary_title c5employee = Yello.extract_title_from_current_company c5employee) ∧
    (Mux.title_missing c2ceo = false ∧
      (Mux.enrich_person c2ceo 0).title = c2ceo.position.getD [] ∧
      (Mux.enrich_person c2ceo 0).enrichment_confidence = 4/5) :=
  ⟨⟨by decide, by decide, C5_title_resolution.2.1 c5employee (by decide) (by decide)⟩,
    ⟨by decide, (C5_title_resolution.2.2.2.1 c2ceo 0 (by decide)).1,
      (C5_title_resolution.2.2.2.1 c2ceo 0 (by decide)).2⟩⟩

/-- C6 amended: a row whose nested JSON fails to parse is dropped from the
batch entirely — the person is not enriched from the remaining fields — while
the rows around it are processed unaffected: loading splits around the bad
row, and every row that parses contributes its employee to the output. -/
theorem C6_bad_row_dropped :
    (∀ (xs ys : List Yello.RawRow) (r : Yello.RawRow), Yello.parse_row r = .error () →
      Yello.load_yello_data (xs ++ r :: ys) =
        Yello.load_yello_data xs ++ Yello.load_yello_data ys) ∧
    (∀ (rows : List Yello.RawRow) (r : Yello.RawRow) (e : Yello.Employee),
      r ∈ rows → Yello.parse_row r = .ok e → e ∈ Yello.load_yello_data rows) := by
  constructor
  · intro xs ys r hr
    induction xs with
    | nil =>
      rw [List.nil_append, Yello.load_yello_data.eq_2, hr, Yello.load_yello_data.eq_1,
        List.nil_append]
    | cons x xs ih =>
      rw [List.cons_append, Yello.load_yello_data.eq_2, Yello.load_yello_data.eq_2]
      cases hx : Yello.parse_row x with
      | ok e =>
        dsimp only []
        rw [ih, List.cons_append]
      | error u =>
        dsimp only []
        rw [ih]
  · intro rows r e hr he
    induction rows with
    | nil => cases hr
    | cons x xs ih =>
      rcases List.mem_cons.mp hr with rfl | hx
      · rw [Yello.load_yello_data.eq_2, he]
        exact List.mem_cons_self _ _
      · rw [Yello.load_yello_data.eq_2]
        cases hpx : Yello.parse_row x with
        | ok e2 =>
          dsimp only []
          exact List.mem_cons_of_mem _ (ih hx)
        | error u =>
          dsimp only []
          exact ih hx

/-- Witness for C6: the concrete two-row batch splits around its bad row. -/
theorem C6_bad_row_dropped_witness :
    Yello.parse_row c6bad = Except.error () ∧
    Yello.load_yello_data ([c6good] ++ c6bad :: []) =
      Yello.load_yello_data [c6good] ++ Yello.load_yello_data [] :=
  ⟨by decide, C6_bad_row_dropped.1 [c6good] [] c6bad (by decide)⟩

/-- `int(n or 0)` on an integer value never raises and returns the value
itself. -/
theorem pyInt_or_zero_int (n : Int) :
    pyInt (pyOr (PyVal.int n) (PyVal.int 0)) = .ok n := by
  by_cases h : n = 0 <;> simp [pyOr, truthy, pyInt, h]

/-- The network fallback of `calculate_seniority_level` cannot raise once
the counts are already integers. -/
theorem seniority_ok_on_ints (t : Str) (ci fi : Int) :
    ∃ s, Yello.calculate_seniority_level t (.int ci) (.int fi) = .ok s := by
  unfold Yello.calculate_seniority_level
  split_ifs <;> try exact ⟨_, rfl⟩
  rw [pyInt_or_zero_int, pyInt_or_zero_int]
  dsimp only []
  split_ifs <;> exact ⟨_, rfl⟩

/-- C7 amended: an absent cell, a `None` value and an empty string all
default to 0 without raising, and when all three count cells convert the
influence computation succeeds; but a non-empty string that does not parse
as an integer makes the `int()` conversion raise instead of defaulting to
0. -/
theorem C7_count_defaults :
    Yello.countVal Option.none = Except.ok 0 ∧
    Yello.countVal (some PyVal.none) = Except.ok 0 ∧
    Yello.countVal (some (PyVal.str [])) = Except.ok 0 ∧
    (∀ s : Str, pyIntStr s = .error () → s ≠ [] →
      Yello.countVal (some (PyVal.str s)) = Except.error ()) ∧
    (∀ (e : Yello.Employee) (c f r : Int),
      Yello.countVal e.connections = Except.ok c →
      Yello.countVal e.followers = Except.ok f →
      Yello.countVal e.recommendations_count = Except.ok r →
      ∃ q, Yello.calculate_influence_score e = Except.ok q) := by
  refine ⟨by decide, by decide, by decide, ?_, ?_⟩
  · intro s hs hne
    rcases s with _ | ⟨a, s⟩
    · exact absurd rfl hne
    · simp [Yello.countVal, pyOr, truthy, pyInt, hs]
  · intro e c f r hc hf hr
    unfold Yello.calculate_influence_score
    rw [hc, hf, hr]
    dsimp only []
    obtain ⟨s, hs⟩ := seniority_ok_on_ints (Yello.get_primary_title e) c f
    rw [hs]
    exact ⟨_, rfl⟩

/-- Witness for C7: the string `abc` does not parse, so the converted
count raises rather than defaulting. -/
theorem C7_count_defaults_witness :
    (pyIntStr "abc".data = Except.error () ∧ "abc".data ≠ []) ∧
    Yello.countVal (some (PyVal.str "abc".data)) = Except.error () :=
  ⟨⟨by decide, by decide⟩, C7_count_defaults.2.2.2.1 "abc".data (by decide) (by decide)⟩

/-- Each bucket step files the employee into exactly one bucket. -/
theorem bucketsSize_add (b : Yello.Buckets) (e : Yello.SalesEmp) :
    Yello.bucketsSize (Yello.addToBuckets b e) = Yello.bucketsSize b + 1 := by
  unfold Yello.addToBuckets
  cases Yello.roleFor e.seniority e.influence_score <;>
    simp [Yello.bucketsSize, List.length_append] <;> omega

/-- Folding the bucket step adds exactly the number of processed people. -/
theorem bucketsSize_foldl (l : List Yello.SalesEmp) (b : Yello.Buckets) :
    Yello.bucketsSize (l.foldl Yello.addToBuckets b) = Yello.bucketsSize b + l.length := by
  induction l generalizing b with
  | nil => simp
  | cons x xs ih =>
    rw [List.foldl_cons, ih, bucketsSize_add, List.length_cons]
    omega

/-- Insertion preserves length plus one. -/
theorem length_insertDesc (x : Yello.SalesEmp) (l : List Yello.SalesEmp) :
    (Yello.insertDesc x l).length = l.length + 1 := by
  induction l with
  | nil => rfl
  | cons y ys ih =>
    unfold Yello.insertDesc
    split_ifs <;> simp [ih]

/-- The influence sort is a permutation in length. -/
theorem length_sortByInfluence (l : List Yello.SalesEmp) :
    (Yello.sortByInfluence l).length = l.length := by
  induction l with
  | nil => rfl
  | cons x xs ih =>
    rw [Yello.sortByInfluence, length_insertDesc, ih, List.length_cons]

/-- C4 amended: the role cascade the yello code implements is the
first-match evaluation of the ordered rules DecisionMaker (Executive and
influence at least 8), Champion (Executive or SeniorLeadership and
influence at least 6), Stakeholder (SeniorLeadership or MidManagement and
influence at least 4), Blocker (influence below 3), else Introducer —
Stakeholder is checked before Blocker and no department or decision-power
condition occurs — and every processed sales employee lands in exactly one
bucket. -/
theorem C4_role_cascade :
    (∀ (s : Yello.Seniority) (i : ℚ),
      Yello.roleFor s i = first_match_role yello_role_rules s i) ∧
    (∀ (emps : List Yello.Employee) (b : Yello.Buckets),
      Yello.identify_buyer_group_roles emps = .ok b →
      ∃ l, Yello.sales_employees emps = .ok l ∧ Yello.bucketsSize b = l.length) := by
  constructor
  · intro s i
    unfold first_match_role yello_role_rules Yello.roleFor
    by_cases h1 : s = .executive ∧ 8 ≤ i
    · simp [List.find?, h1]
    by_cases h2 : (s = .executive ∨ s = .seniorLeadership) ∧ 6 ≤ i
    · simp [List.find?, h1, h2]
    by_cases h3 : (s = .seniorLeadership ∨ s = .midManagement) ∧ 4 ≤ i
    · simp [List.find?, h1, h2, h3]
    by_cases h4 : i < 3
    · simp [List.find?, h1, h2, h3, h4]
    · simp [List.find?, h1, h2, h3, h4]
  · intro emps b hb
    unfold Yello.identify_buyer_group_roles at hb
    cases hs : Yello.sales_employees emps with
    | error u => rw [hs] at hb; cases hb
    | ok l =>
      rw [hs] at hb
      dsimp only [] at hb
      injection hb with hX
      subst hX
      refine ⟨l, rfl, ?_⟩
      rw [bucketsSize_foldl, length_sortByInfluence]
      simp [Yello.bucketsSize, Yello.emptyBuckets]

/-- Witness for C4: the concrete one-employee batch is bucketed in full. -/
theorem C4_role_cascade_witness :
    Yello.identify_buyer_group_roles [c4emp] = Except.ok c4buckets ∧
    (∃ l, Yello.sales_employees [c4emp] = Except.ok l ∧ Yello.bucketsSize c4buckets = l.length) :=
  ⟨by decide, C4_role_cascade.2 [c4emp] c4buckets (by decide)⟩

/-- Membership in the grouping-key scan: a key is produced exactly when it
occurs in the remaining input and has not been taken before. -/
theorem mem_firstKeysGo (x : Str) (l : List Str) :
    ∀ seen, x ∈ Mux.firstKeysGo l seen ↔ x ∈ l ∧ x ∉ seen := by
  induction l with
  | nil => intro seen; simp [Mux.firstKeysGo]
  | cons y ys ih =>
    intro seen
    unfold Mux.firstKeysGo
    by_cases hy : y ∈ seen
    · rw [if_pos hy, ih seen]
      constructor
      · rintro ⟨hx, hs⟩
        exact ⟨List.mem_cons_of_mem _ hx, hs⟩
      · rintro ⟨hx, hs⟩
        rcases List.mem_cons.mp hx with rfl | hx2
        · exact absurd hy hs
        · exact ⟨hx2, hs⟩
    · rw [if_neg hy, List.mem_cons, ih (y :: seen)]
      constructor
      · rintro (rfl | ⟨hx, hs⟩)
        · exact ⟨List.mem_cons_self _ _, hy⟩
        · exact ⟨List.mem_cons_of_mem _ hx, fun hmem => hs (List.mem_cons_of_mem _ hmem)⟩
      · rintro ⟨hx, hs⟩
        by_cases hxy : x = y
        · exact Or.inl hxy
        · rcases List.mem_cons.mp hx with rfl | hx2
          · exact Or.inl rfl
          · refine Or.inr ⟨hx2, fun hmem => ?_⟩
            rcases List.mem_cons.mp hmem with rfl | hmem2
            · exact hxy rfl
            · exact hs hmem2

/-- The grouping-key scan never repeats a key: the insertion-ordered dict
has distinct keys. -/
theorem nodup_firstKeysGo (l : List Str) : ∀ seen, (Mux.firstKeysGo l seen).Nodup := by
  induction l with
  | nil => intro seen; simp [Mux.firstKeysGo]
  | cons y ys ih =>
    intro seen
    unfold Mux.firstKeysGo
    by_cases hy : y ∈ seen
    · rw [if_pos hy]; exact ih seen
    · rw [if_neg hy]
      refine List.Nodup.cons ?_ (ih (y :: seen))
      intro hmem
      exact ((mem_firstKeysGo y ys (y :: seen)).mp hmem).2 (List.mem_cons_self _ _)

/-- Counting through a `filterMap`. -/
theorem countP_filterMap_aux (f : Str → Option Mux.BuyerGroup) (p : Mux.BuyerGroup → Bool) :
    ∀ K : List Str, (K.filterMap f).countP p = K.countP (fun d => ((f d).map p).getD false) := by
  intro K
  induction K with
  | nil => rfl
  | cons a K ih =>
    cases hf : f a with
    | none => simp [List.filterMap_cons, hf, List.countP_cons, ih]
    | some b => simp [List.filterMap_cons, hf, List.countP_cons, ih]

/-- Counting a fixed key in a duplicate-free key list that contains it. -/
theorem countP_eq_key (c : Str) : ∀ K : List Str, K.Nodup → c ∈ K →
    K.countP (fun d => decide (c = d)) = 1 := by
  intro K
  induction K with
  | nil => intro _ h; cases h
  | cons a K ih =>
    intro hnd hc
    rw [List.countP_cons]
    rcases List.mem_cons.mp hc with rfl | hc2
    · have hz : K.countP (fun d => decide (c = d)) = 0 := by
        rw [List.countP_eq_zero]
        intro d hd
        simp only [decide_eq_true_eq]
        rintro rfl
        exact (List.nodup_cons.mp hnd).1 hd
      simp [hz]
    · have ha : ¬(c = a) := by
        rintro rfl
        exact (List.nodup_cons.mp hnd).1 hc2
      rw [ih (List.nodup_cons.mp hnd).2 hc2]
      simp [ha]

/-- C1 amended: when the enriched people carry distinct ids, a person whose
department holds at least 3 members of the batch appears in exactly one
emitted buyer group, and a person in a department of fewer than 3 members
appears in no group at all — small departments are dropped, not folded into
a company-wide group. -/
theorem C1_group_partition (people : List Mux.EnrichedPerson)
    (hids : (people.map (fun q => q.id)).Nodup)
    (p : Mux.EnrichedPerson) (hp : p ∈ people) :
    (Mux.identify_buyer_groups people).countP (fun g => decide (p.id ∈ g.members)) =
      if 3 ≤ (people.filter (fun q => decide (q.department = p.department))).length then 1
      else 0 := by
  have hmem : ∀ d : Str,
      (p.id ∈ (people.filter (fun q => decide (q.department = d))).map (fun q => q.id)) ↔
        p.department = d := by
    intro d
    constructor
    · intro h
      rcases List.mem_map.mp h with ⟨q, hq, hqid⟩
      rcases List.mem_filter.mp hq with ⟨hqmem, hqd⟩
      have hqp : q = p := List.inj_on_of_nodup_map hids hqmem hp hqid
      subst hqp
      exact of_decide_eq_true hqd
    · intro h
      exact List.mem_map.mpr ⟨p, List.mem_filter.mpr ⟨hp, decide_eq_true h⟩, rfl⟩
  have hval : ∀ d : Str,
      (((if 3 ≤ (people.filter (fun q => decide (q.department = d))).length
          then some (Mux.make_buyer_group d (people.filter (fun q => decide (q.department = d))))
          else Option.none).map (fun g => decide (p.id ∈ g.members))).getD false)
        = (decide (p.department = d) &&
            decide (3 ≤ (people.filter
              (fun q => decide (q.department = p.department))).length)) := by
    intro d
    by_cases hd : p.department = d
    · subst hd
      by_cases h3 : 3 ≤ (people.filter (fun q => decide (q.department = p.department))).length
      · rw [if_pos h3]
        have hin : p.id ∈ (Mux.make_buyer_group p.department
            (people.filter (fun q => decide (q.department = p.department)))).members :=
          (hmem p.department).mpr rfl
        simp [hin, h3]
      · rw [if_neg h3]
        simp [h3]
    · by_cases h3 : 3 ≤ (people.filter (fun q => decide (q.department = d))).length
      · rw [if_pos h3]
        have hnotin : p.id ∉ (Mux.make_buyer_group d
            (people.filter (fun q => decide (q.department = d)))).members :=
          fun hmm => hd ((hmem d).mp hmm)
        simp [hnotin, hd]
      · rw [if_neg h3]
        simp [hd]
  unfold Mux.identify_buyer_groups
  rw [countP_filterMap_aux]
  dsimp only []
  rw [funext hval]
  by_cases hC : 3 ≤ (people.filter (fun q => decide (q.department = p.department))).length
  · rw [if_pos hC]
    have hsimp : (fun d => decide (p.department = d) &&
        decide (3 ≤ (people.filter (fun q => decide (q.department = p.department))).length))
        = fun d => decide (p.department = d) := by
      funext d
      rw [decide_eq_true hC, Bool.and_true]
    rw [hsimp]
    exact countP_eq_key p.department _ (nodup_firstKeysGo _ [])
      ((mem_firstKeysGo p.department _ []).mpr
        ⟨List.mem_map.mpr ⟨p, hp, rfl⟩, List.not_mem_nil _⟩)
  · rw [if_neg hC]
    have hsimp : (fun d => decide (p.department = d) &&
        decide (3 ≤ (people.filter (fun q => decide (q.department = p.department))).length))
        = fun _ => false := by
      funext d
      rw [decide_eq_false hC, Bool.and_false]
    rw [hsimp]
    rw [List.countP_eq_zero]
    intro d _
    simp

/-- Witness for C1: in a batch of three distinct engineers the first one
appears in exactly one emitted group. -/
theorem C1_group_partition_witness :
    ((c1demo.map (fun q => q.id)).Nodup ∧
      Mux.enrich_person (mkPerson "e1" "A" (some "Software Engineer") Option.none Option.none) 0
        ∈ c1demo) ∧
    (Mux.identify_buyer_groups c1demo).countP
      (fun g => decide ((Mux.enrich_person (mkPerson "e1" "A" (some "Software Engineer")
        Option.none Option.none) 0).id ∈ g.members)) =
      if 3 ≤ (c1demo.filter (fun q => decide (q.department =
          (Mux.enrich_person (mkPerson "e1" "A" (some "Software Engineer")
            Option.none Option.none) 0).department))).length then 1
      else 0 :=
  ⟨⟨by decide, by decide⟩, C1_group_partition c1demo (by decide) _ (by decide)⟩
